import Mathlib

/-!
# ERI-js: the client of the ERI web service (`src/eri-client.js`)

A shallow embedding of `eri-client.js` and the properties of its request
construction and response normalisation.

Conventions of the embedding.

* A JavaScript string is the list of its UTF-16 code units (`JSString`); `js`
  turns a Lean string literal into one.
* Platform objects (`Request`, `Headers`, `Response`, promises, `JSON`,
  `Object.assign`) are not code of the repository. They are modelled after the
  standards that define them, each with a comment that says what is kept.
* What the platform decides and the client cannot see is a parameter: the URL
  parser of the `Request` constructor (`URLParser`) and the transport (`fetch`),
  a function that says how the fetch of a request settles.
* Effects are recorded in an explicit `Trace`.
-/

namespace ERI

/-! ## Strings -/

/-- A JavaScript string, as the list of its UTF-16 code units. -/
abbrev JSString := List Nat

/-- UTF-16 encoding of one code point: one unit in the basic plane, a surrogate pair above. -/
def utf16 (c : Char) : List Nat :=
  if c.toNat < 65536 then [c.toNat]
  else [55296 + (c.toNat - 65536) / 1024, 56320 + (c.toNat - 65536) % 1024]

/-- The JavaScript string written as the Lean literal `s`. -/
def js (s : String) : JSString := s.toList.flatMap utf16

/-- The code unit of `/`. -/
def slash : Nat := 47

/-- The method `String.prototype.slice(start, end)`: a negative index counts from the end, both
indices are clamped to `[0, length]`, and the result is empty when `end` is not after
`start`. `stop = none` is the call with `end` left out. -/
def slice (s : JSString) (start : Int) (stop : Option Int) : JSString :=
  let len : Int := s.length
  let first : Int := if start < 0 then max (len + start) 0 else min start len
  let final : Int :=
    match stop with
    | none => len
    | some e => if e < 0 then max (len + e) 0 else min e len
  (s.drop first.toNat).take (final - first).toNat

/-! ## `normalizeURL` (lines 29-39) -/

/-- Translation of `normalizeURL`:
```
if (!base.length) { base = ''; }
if (base.length > 1 && base.slice(-1) === '/') { base = base.slice(0, -1); }
return base + path;
``` -/
def normalizeURL (base path : JSString) : JSString :=
  let base₁ : JSString := if base.length = 0 then [] else base
  let base₂ : JSString :=
    if base₁.length > 1 ∧ slice base₁ (-1) none = [slash] then slice base₁ 0 (some (-1))
    else base₁
  base₂ ++ path

/-- The spec's reading of "exactly one trailing slash": the last character is `/` and
the character before it, if there is one, is not. -/
def exactlyOneTrailingSlash (base : JSString) : Prop :=
  base.getLast? = some slash ∧ base.dropLast.getLast? ≠ some slash

instance (base : JSString) : Decidable (exactlyOneTrailingSlash base) := by
  unfold exactlyOneTrailingSlash; infer_instance

/-! ## JavaScript values and objects -/

/-- The JavaScript values the embedding carries: `undefined` and JSON data. A number is
a payload the client never computes with; it is kept as an integer, which covers the
integers JavaScript writes in plain decimal digits (fractions and magnitudes from `10^21`
on are outside the model). An object lists its own properties in its own key order. -/
inductive JSValue where
  | undefined
  | null
  | bool (b : Bool)
  | num (n : Int)
  | str (s : JSString)
  | arr (items : List JSValue)
  | obj (props : List (JSString × JSValue))

/-- The own enumerable data properties of an object, in the order of its keys. -/
abbrev Obj := List (JSString × JSValue)

/-- Whether `o` has the own property `k`. -/
def hasKey (o : Obj) (k : JSString) : Bool :=
  o.any (fun p => decide (p.1 = k))

/-- The value of the own property `k`, `none` when `o` has no such property. -/
def getProp : Obj → JSString → Option JSValue
  | [], _ => none
  | (k', v) :: rest, k => if k' = k then some v else getProp rest k

/-- Whether a code unit is a decimal digit. -/
def isDigit (c : Nat) : Bool := decide (48 ≤ c ∧ c ≤ 57)

/-- The number a string of decimal digits writes. -/
def decimalValue (s : JSString) : Nat := s.foldl (fun n c => 10 * n + (c - 48)) 0

/-- The array index a property key stands for: the key is the canonical decimal text
of an integer from `0` to `2^32 - 2`. Such keys come first among the keys of an object,
in ascending order. -/
def arrayIndex? (k : JSString) : Option Nat :=
  if k ≠ [] ∧ k.all isDigit = true ∧ (k = [48] ∨ k.head? ≠ some 48) ∧
      decimalValue k ≤ 4294967294 then
    some (decimalValue k)
  else none

/-- The new value of an own property that exists: the property keeps its place. -/
def updateProp : Obj → JSString → JSValue → Obj
  | [], _, _ => []
  | (k', v') :: rest, k, v =>
    if k' = k then (k, v) :: rest else (k', v') :: updateProp rest k v

/-- A new property whose key is the array index `n`: it goes before the first key that
is no array index or is a greater one. -/
def insertIndexed (n : Nat) (k : JSString) (v : JSValue) : Obj → Obj
  | [] => [(k, v)]
  | (k', v') :: rest =>
    match arrayIndex? k' with
    | some m =>
      if m < n then (k', v') :: insertIndexed n k v rest else (k, v) :: (k', v') :: rest
    | none => (k, v) :: (k', v') :: rest

/-- A new own property: an array index goes to its place among the array indices, which
come first; any other key is added last. -/
def insertNew (o : Obj) (k : JSString) (v : JSValue) : Obj :=
  match arrayIndex? k with
  | some n => insertIndexed n k v o
  | none => o ++ [(k, v)]

/-- The prototype of an object: `Object.prototype` (what an object literal has), `null`,
or an object or array of the decoded data, which `__proto__` can install. -/
inductive Proto where
  | objectPrototype
  | null
  | data (v : JSValue)

/-- An object the client builds and mutates (the local `skel`): its prototype and its
own properties. -/
structure JSObject where
  proto : Proto
  props : Obj

/-- The key of the accessor that objects inherit from `Object.prototype`. -/
def protoKey : JSString := js "__proto__"

/-- Whether an assignment to `__proto__` on an object with this prototype, and without
an own property of that name, reaches the setter of `Object.prototype`. It does not when
the prototype is `null`, or is an object of the data with an own property `__proto__`
(which `JSON.parse` creates as a data property): then the chain offers no setter. -/
def reachesProtoSetter : Proto → Bool
  | .objectPrototype => true
  | .null => false
  | .data (.obj props) => !hasKey props protoKey
  | .data _ => true

/-- The setter of `__proto__`: an object or array becomes the prototype, `null` removes
it, and any other value is ignored. -/
def setPrototype (o : JSObject) (v : JSValue) : JSObject :=
  match v with
  | .obj props => { o with proto := .data (.obj props) }
  | .arr items => { o with proto := .data (.arr items) }
  | .null => { o with proto := .null }
  | _ => o

/-- The assignment `o[k] = v`, as `Object.assign` performs it (the `[[Set]]` of an
ordinary object). An own property gets the value. Otherwise the key `__proto__` goes to
the inherited setter when the prototype chain offers it, and is then no own property;
any other key becomes a new own data property. -/
def setProp (o : JSObject) (k : JSString) (v : JSValue) : JSObject :=
  if hasKey o.props k then { o with props := updateProp o.props k v }
  else if k = protoKey ∧ reachesProtoSetter o.proto = true then setPrototype o v
  else { o with props := insertNew o.props k v }

/-- The own enumerable properties `Object.assign` reads from a source: those of
an object, the indexed elements of an array, the indexed characters of a string, and
none for `undefined`, `null`, a boolean or a number. -/
def ownProps : JSValue → Obj
  | .obj props => props
  | .arr items => items.enum.map (fun p => (js (toString p.1), p.2))
  | .str s => s.enum.map (fun p => (js (toString p.1), JSValue.str [p.2]))
  | _ => []

/-- The call `Object.assign(target, source)`: every own enumerable property of `source` is
assigned to `target`, in order; the result is the (updated) target. -/
def Object.assign (target : JSObject) (source : JSValue) : JSObject :=
  (ownProps source).foldl (fun t p => setProp t p.1 p.2) target

/-! ## `JSON.stringify` -/

/-- The digit of `n % 16` in lower-case hexadecimal. -/
def hexDigit (n : Nat) : Nat :=
  if n % 16 < 10 then 48 + n % 16 else 87 + n % 16

/-- The escape `\uXXXX` of a code unit. -/
def unicodeEscape (c : Nat) : JSString :=
  [92, 117, hexDigit (c / 4096), hexDigit (c / 256), hexDigit (c / 16), hexDigit c]

def isLeadingSurrogate (c : Nat) : Bool := decide (55296 ≤ c ∧ c ≤ 56319)

def isTrailingSurrogate (c : Nat) : Bool := decide (56320 ≤ c ∧ c ≤ 57343)

/-- One code unit that is not part of a surrogate pair, as `QuoteJSONString` writes it. -/
def quoteUnit (c : Nat) : JSString :=
  if c = 8 then [92, 98]
  else if c = 9 then [92, 116]
  else if c = 10 then [92, 110]
  else if c = 12 then [92, 102]
  else if c = 13 then [92, 114]
  else if c = 34 then [92, 34]
  else if c = 92 then [92, 92]
  else if c < 32 ∨ isLeadingSurrogate c ∨ isTrailingSurrogate c then unicodeEscape c
  else [c]

/-- The characters of a string between the quotes of its JSON text: a surrogate
pair is kept, a lone surrogate and a control character are escaped. -/
def quoteBody : JSString → JSString
  | [] => []
  | [c] => quoteUnit c
  | c :: d :: rest =>
    if isLeadingSurrogate c ∧ isTrailingSurrogate d then c :: d :: quoteBody rest
    else quoteUnit c ++ quoteBody (d :: rest)

/-- The operation `QuoteJSONString`: the JSON text of a string. -/
def quoteJSONString (s : JSString) : JSString := [34] ++ quoteBody s ++ [34]

/-- The strings of `parts`, with `sep` between them. -/
def joinWith (sep : JSString) : List JSString → JSString
  | [] => []
  | [x] => x
  | x :: y :: rest => x ++ sep ++ joinWith sep (y :: rest)

/-- The operation `SerializeJSONProperty`: the JSON text of a value, `none` where JavaScript gives
`undefined` (the value `undefined` itself). In an array such an element is written
`null`; in an object such a property is left out. -/
def serialize : JSValue → Option JSString
  | .undefined => none
  | .null => some (js "null")
  | .bool true => some (js "true")
  | .bool false => some (js "false")
  | .num n => some (js (toString n))
  | .str s => some (quoteJSONString s)
  | .arr items => some (js "[" ++ joinWith (js ",") (serializeItems items) ++ js "]")
  | .obj props => some (js "\x7b" ++ joinWith (js ",") (serializeProps props) ++ js "\x7d")
where
  /-- The texts of the elements of an array. -/
  serializeItems : List JSValue → List JSString
    | [] => []
    | v :: vs => (serialize v).getD (js "null") :: serializeItems vs
  /-- The texts `"key":value` of the properties of an object. -/
  serializeProps : List (JSString × JSValue) → List JSString
    | [] => []
    | (k, v) :: ps =>
      match serialize v with
      | none => serializeProps ps
      | some t => (quoteJSONString k ++ js ":" ++ t) :: serializeProps ps

/-- The call `JSON.stringify(value)`. -/
def JSON.stringify (value : JSValue) : Option JSString := serialize value

/-! ## Requests

`Request` and `Headers` are platform objects. A request is modelled as the record of
the members the client sets or reads: `url`, `method`, `headers`, `mode`, `cache` and the
body. The constructor follows the steps of the Fetch standard for these members. It can
throw a `TypeError`. The URL parser of the platform, which depends on the document, is a
parameter. A request record stands for a request object of the platform, so its method is
a valid, normalised method and its header list is one the platform admits. The text of a
`TypeError` is the engine's; the texts below are those of one engine. -/

/-- A header list, as `new Headers({...})` holds it. -/
abbrev Headers := List (JSString × JSString)

/-- ASCII lower case of a code unit; header names compare without case. -/
def lowerUnit (c : Nat) : Nat := if 65 ≤ c ∧ c ≤ 90 then c + 32 else c

/-- Whether two header names are the same name. -/
def sameHeaderName (a b : JSString) : Bool :=
  decide (a.map lowerUnit = b.map lowerUnit)

/-- The call `headers.get(name)`: the values of `name`, joined by a comma and a space, `none`
when the list has no such header. -/
def Headers.get (h : Headers) (name : JSString) : Option JSString :=
  match (h.filter (fun p => sameHeaderName p.1 name)).map (fun p => p.2) with
  | [] => none
  | vs => some (joinWith (js ", ") vs)

/-- The values of the member `mode`: `'navigate'`, `'same-origin'`, `'no-cors'`, `'cors'`. -/
inductive RequestMode where
  | navigate
  | sameOrigin
  | noCors
  | cors
deriving DecidableEq

/-- The values of the member `cache`: `'default'`, `'no-store'`, `'reload'`, `'no-cache'`,
`'force-cache'`, `'only-if-cached'`. -/
inductive RequestCache where
  | byDefault
  | noStore
  | reload
  | noCache
  | forceCache
  | onlyIfCached
deriving DecidableEq

/-- A `Request` object. -/
structure Request where
  url : JSString
  method : JSString
  headers : Headers
  mode : RequestMode
  cache : RequestCache
  body : Option JSString
  bodyUsed : Bool
deriving DecidableEq

/-- A body in an `init` dictionary: a string, or the stream that the `body` of a request
object is. -/
inductive InitBody where
  | text (s : JSString)
  | stream (content : JSString)
deriving DecidableEq

/-- The `init` dictionary of the `Request` constructor; `none` is a member left out. -/
structure RequestInit where
  method : Option JSString
  headers : Option Headers
  mode : Option RequestMode
  cache : Option RequestCache
  body : Option InitBody

/-- Whether the dictionary has a member. -/
def RequestInit.nonEmpty (init : RequestInit) : Bool :=
  init.method.isSome || init.headers.isSome || init.mode.isSome || init.cache.isSome ||
    init.body.isSome

/-- A request object read as an `init` dictionary: its members are the request's
properties of the same name; its `body` is a stream. -/
def Request.asInit (r : Request) : RequestInit :=
  ⟨some r.method, some r.headers, some r.mode, some r.cache, r.body.map InitBody.stream⟩

/-- The URL steps of `new Request(url, ...)` in the document at hand: the serialised URL,
or `none` when the URL does not parse against the base URL of the document or includes
credentials, and the constructor throws. -/
abbrev URLParser := JSString → Option JSString

/-- The `TypeError` of a URL the constructor does not accept. -/
def typeErrorURL (url : JSString) : JSString :=
  js "TypeError: Failed to construct \x27Request\x27: Failed to parse URL from " ++ url

/-- The `TypeError` of the mode `navigate` in an `init` dictionary. -/
def typeErrorNavigate : JSString :=
  js "TypeError: Failed to construct \x27Request\x27: Cannot construct a Request with a RequestInit whose mode member is set as \x27navigate\x27."

/-- The `TypeError` of the cache mode `only-if-cached` outside the mode `same-origin`. -/
def typeErrorOnlyIfCached : JSString :=
  js "TypeError: Failed to construct \x27Request\x27: \x27only-if-cached\x27 can be set only with \x27same-origin\x27 mode"

/-- The `TypeError` of a method that the mode `no-cors` does not admit. -/
def typeErrorNoCorsMethod (method : JSString) : JSString :=
  js "TypeError: Failed to construct \x27Request\x27: \x27" ++ method ++
    js "\x27 is unsupported in no-cors mode."

/-- The `TypeError` of a body on a `GET` or `HEAD` request. -/
def typeErrorBodyMethod : JSString :=
  js "TypeError: Failed to construct \x27Request\x27: Request with GET/HEAD method cannot have body."

/-- The `TypeError` of a stream body in a mode other than `same-origin` and `cors`. -/
def typeErrorStreamMode : JSString :=
  js "TypeError: Failed to construct \x27Request\x27: If request is made from ReadableStream, mode should be \x27same-origin\x27 or \x27cors\x27"

/-- The `TypeError` of a request whose body was already used. -/
def typeErrorBodyUsed : JSString :=
  js "TypeError: Failed to construct \x27Request\x27: Cannot construct a Request with a Request object that has already been used."

/-- The `TypeError` of `clone()` on a request whose body was already used. -/
def typeErrorClone : JSString :=
  js "TypeError: Failed to execute \x27clone\x27 on \x27Request\x27: Request body is already used"

/-- The steps of the constructor after the URL steps, on the request `start` (the copy
of the input request, or the fresh request of a URL) and the dictionary `init`:

* with a non-empty `init`, the mode `navigate` of `start` becomes `same-origin`;
* `init.mode` replaces the mode, and is refused when it is `navigate`;
* `init.cache` replaces the cache mode; `only-if-cached` needs the mode `same-origin`;
* `init.method` replaces the method; the mode `no-cors` admits `GET`, `HEAD`, `POST`;
* `init.headers` replaces the header list;
* a body, of `init` or of `start`, is refused on `GET` and `HEAD`;
* a string body adds `Content-Type: text/plain;charset=UTF-8` when the headers name no
  `Content-Type`; a stream body needs the mode `same-origin` or `cors` (its member
  `duplex`, which a request object carries, is taken as present);
* without a body in `init`, the body of `start` is taken over, unless it was used. -/
def Request.construct (start : Request) (init : RequestInit) : Except JSString Request :=
  let mode₀ : RequestMode :=
    if init.nonEmpty ∧ start.mode = .navigate then .sameOrigin else start.mode
  if init.mode = some .navigate then .error typeErrorNavigate
  else
    let mode : RequestMode := init.mode.getD mode₀
    let cache : RequestCache := init.cache.getD start.cache
    if cache = .onlyIfCached ∧ mode ≠ .sameOrigin then .error typeErrorOnlyIfCached
    else
      let method : JSString := init.method.getD start.method
      if mode = .noCors ∧ method ≠ js "GET" ∧ method ≠ js "HEAD" ∧ method ≠ js "POST" then
        .error (typeErrorNoCorsMethod method)
      else
        let headers : Headers := init.headers.getD start.headers
        if (init.body.isSome ∨ start.body.isSome) ∧ (method = js "GET" ∨ method = js "HEAD") then
          .error typeErrorBodyMethod
        else
          match init.body with
          | some (.text s) =>
            let headers₁ : Headers :=
              match Headers.get headers (js "Content-Type") with
              | none => headers ++ [(js "Content-Type", js "text/plain;charset=UTF-8")]
              | some _ => headers
            .ok ⟨start.url, method, headers₁, mode, cache, some s, false⟩
          | some (.stream s) =>
            if mode ≠ .sameOrigin ∧ mode ≠ .cors then .error typeErrorStreamMode
            else .ok ⟨start.url, method, headers, mode, cache, some s, false⟩
          | none =>
            if start.body.isSome ∧ start.bodyUsed = true then .error typeErrorBodyUsed
            else .ok ⟨start.url, method, headers, mode, cache, start.body, false⟩

/-- The call `new Request(url, init)` for a string `url`: the URL steps, then the
constructor on a fresh request of the serialised URL (`GET`, no header, mode `cors`, cache
mode `default`, no body). -/
def Request.ofURL (parse : URLParser) (url : JSString) (init : RequestInit) :
    Except JSString Request :=
  match parse url with
  | none => .error (typeErrorURL url)
  | some serialised =>
    Request.construct ⟨serialised, js "GET", [], .cors, .byDefault, none, false⟩ init

/-- The call `new Request(request, init)` for a request object: the constructor on a
copy of the request, whose URL was parsed when it was built. -/
def Request.ofRequest (request : Request) (init : RequestInit) : Except JSString Request :=
  Request.construct request init

/-- The call `request.clone()`: a copy of the request; it throws when the body was used. -/
def Request.clone (r : Request) : Except JSString Request :=
  if r.bodyUsed = true then .error typeErrorClone else .ok r

/-! ## `optsAreValid` (lines 9-20) -/

/-- The argument of `ERIClient.new`, when it is an object: `url` and `request` are
`none` when the property is absent. -/
structure Opts where
  url : Option JSString
  request : Option Request

/-- Translation of `optsAreValid`; `opts = none` is an absent (`undefined`) argument.
```
if (!opts) { return false; }
if (opts.request && opts.request.bodyUsed) { return false; }
return !(!opts.url || !opts.url.length);
``` -/
def optsAreValid (opts : Option Opts) : Bool :=
  match opts with
  | none => false
  | some o =>
    if (match o.request with
        | some r => r.bodyUsed
        | none => false) then false
    else
      match o.url with
      | none => false
      | some u => !(u.isEmpty || u.length == 0)

/-! ## Request builders (lines 48-72) -/

/-- Translation of `newRequest`: the clone of the override, or a fresh request
```
new Request('', {method: 'POST', headers: new Headers({"Content-Type": "application/json"}),
                 mode: 'cors', cache: 'default'})
``` -/
def newRequest (parse : URLParser) (opts : Opts) : Except JSString Request :=
  match opts.request with
  | some r => r.clone
  | none =>
    Request.ofURL parse (js "")
      ⟨some (js "POST"), some [(js "Content-Type", js "application/json")],
        some .cors, some .byDefault, none⟩

/-- What reading `.length` of an absent `url` raises. -/
def typeErrorLength : JSString :=
  js "TypeError: Cannot read properties of undefined (reading \x27length\x27)"

/-- Translation of `newAutocompleteRequest`:
`new Request(normalizeURL(opts.url, '/autocomplete'), newRequest(opts))`. The arguments
are evaluated first, then the constructor runs. -/
def newAutocompleteRequest (parse : URLParser) (opts : Opts) : Except JSString Request :=
  match opts.url with
  | none => .error typeErrorLength
  | some url =>
    match newRequest parse opts with
    | .error e => .error e
    | .ok template => Request.ofURL parse (normalizeURL url (js "/autocomplete")) template.asInit

/-- Translation of `newSuggestionRequest`:
`new Request(normalizeURL(opts.url, '/suggest'), newRequest(opts))`. The arguments are
evaluated first, then the constructor runs. -/
def newSuggestionRequest (parse : URLParser) (opts : Opts) : Except JSString Request :=
  match opts.url with
  | none => .error typeErrorLength
  | some url =>
    match newRequest parse opts with
    | .error e => .error e
    | .ok template => Request.ofURL parse (normalizeURL url (js "/suggest")) template.asInit

/-! ## Promises, the transport and the callback -/

/-- How a promise settles. A thrown value or rejection reason is carried as the
string JavaScript makes of it when it is appended to a string. -/
inductive Settled (α : Type) where
  | fulfilled (value : α)
  | rejected (reason : JSString)

/-- The promise of `f value`, or the same rejection. -/
def Settled.map {α β : Type} (f : α → β) : Settled α → Settled β
  | .fulfilled v => .fulfilled (f v)
  | .rejected r => .rejected r

/-- A `Response`: `json` is how the promise of `r.json()` settles, fulfilled with
the decoded body or rejected when the body is not JSON. -/
structure Response where
  json : Settled JSValue

/-- The transport: how `fetch(request)` settles. -/
abbrev Transport := Request → Settled Response

/-- The `cb` argument: a function, given by what one invocation does with the
envelope (`none`: it returns, `some e`: it throws `e`), or a value that is not a
function. -/
inductive Callback where
  | function (run : JSObject → Option JSString)
  | notFunction (v : JSValue)

/-- What the client did, oldest first. -/
structure Trace where
  /-- The requests handed to `fetch`. -/
  fetched : List Request
  /-- How many times `json()` was called on a response. -/
  decoded : Nat
  /-- The envelopes the callback was invoked with. -/
  delivered : List JSObject
  /-- The reasons raised by the handlers of the promise chain. -/
  raised : List JSString

/-- The state the handlers of one `doRequest` chain share: the local `skel` and the trace. -/
structure ChainState where
  skel : JSObject
  trace : Trace

/-- A promise of the chain, once settled, with the state its handlers left. -/
abbrev Promise (α : Type) := Settled α × ChainState

/-- The call `p.then(h)`: `h` runs on a fulfilled `p`; a rejection passes through. -/
def Promise.thenDo {α β : Type} (p : Promise α) (h : α → ChainState → Promise β) : Promise β :=
  match p with
  | (.fulfilled v, s) => h v s
  | (.rejected r, s) => (.rejected r, s)

/-- The call `p.catch(h)`: `h` runs on a rejected `p`; a fulfilment passes through. -/
def Promise.catchDo {α : Type} (p : Promise α) (h : JSString → ChainState → Promise α) :
    Promise α :=
  match p with
  | (.fulfilled v, s) => (.fulfilled v, s)
  | (.rejected r, s) => h r s

/-- A handler raises `reason`: its promise is rejected, and the trace records it. -/
def raise {α : Type} (reason : JSString) (s : ChainState) : Promise α :=
  (.rejected reason, { s with trace := { s.trace with raised := s.trace.raised ++ [reason] } })

/-- The call `cb(envelope)` inside a handler that then returns `undefined`. -/
def invokeCallback (cb : Callback) (envelope : JSObject) (s : ChainState) : Promise JSValue :=
  match cb with
  | .notFunction _ => raise (js "TypeError: cb is not a function") s
  | .function run =>
    let s₁ : ChainState :=
      { s with trace := { s.trace with delivered := s.trace.delivered ++ [envelope] } }
    match run envelope with
    | none => (.fulfilled .undefined, s₁)
    | some e => raise e s₁

/-- What flows down the chain after the first `catch`: the response of `fetch`, or
the value the `catch` handler returned. -/
inductive ChainVal where
  | response (r : Response)
  | value (v : JSValue)

/-- What `r.json()` raises when `r` is not a response. -/
def typeErrorJson (v : JSValue) : JSString :=
  match v with
  | .undefined => js "TypeError: Cannot read properties of undefined (reading \x27json\x27)"
  | .null => js "TypeError: Cannot read properties of null (reading \x27json\x27)"
  | _ => js "TypeError: r.json is not a function"

/-! ## `doRequest` (lines 85-107) -/

/-- The local `skel` of `doRequest`: `{clientError: undefined, error: undefined}`. -/
def skeleton : JSObject :=
  ⟨.objectPrototype, [(js "clientError", .undefined), (js "error", .undefined)]⟩

/-- The handler of the first `catch`:
`reason => { cb(Object.assign(skel, {clientError: "error in request " + reason})); }`. -/
def onFetchRejected (cb : Callback) (reason : JSString) (s : ChainState) : Promise ChainVal :=
  let skel : JSObject :=
    Object.assign s.skel (.obj [(js "clientError", .str (js "error in request " ++ reason))])
  let p : Promise JSValue := invokeCallback cb skel { s with skel := skel }
  (p.1.map ChainVal.value, p.2)

/-- The handler of the first `then`: `r => r.json()`. -/
def onResponse (r : ChainVal) (s : ChainState) : Promise JSValue :=
  match r with
  | .response resp => (resp.json, { s with trace := { s.trace with decoded := s.trace.decoded + 1 } })
  | .value v => raise (typeErrorJson v) s

/-- The handler of the second `then`: `data => { cb(Object.assign(skel, data)); }`. -/
def onData (cb : Callback) (data : JSValue) (s : ChainState) : Promise JSValue :=
  let skel : JSObject := Object.assign s.skel data
  invokeCallback cb skel { s with skel := skel }

/-- The handler of the last `catch`: `reason => { throw "error in callback" + reason; }`. -/
def onFailure (reason : JSString) (s : ChainState) : Promise JSValue :=
  raise (js "error in callback" ++ reason) s

/-- Translation of `doRequest`, run to the end of its promise chain:
```
const skel = {clientError: undefined, error: undefined};
fetch(request).catch(...).then(r => r.json()).then(data => {...}).catch(...)
```
The result is how the last promise of the chain settles, and the trace. -/
def doRequest (fetch : Transport) (request : Request) (cb : Callback) (t : Trace) :
    Settled JSValue × Trace :=
  let skel : JSObject := skeleton
  let start : Promise ChainVal :=
    ((fetch request).map ChainVal.response,
      ⟨skel, { t with fetched := t.fetched ++ [request] }⟩)
  let p : Promise JSValue :=
    Promise.catchDo
      (Promise.thenDo
        (Promise.thenDo
          (Promise.catchDo start (onFetchRejected cb))
          onResponse)
        (onData cb))
      onFailure
  (p.1, p.2.trace)

/-! ## `validateCallBack` and the client (lines 109-180) -/

/-- Translation of `validateCallBack`:
`if (typeof cb !== "function") { throw "callback to suggest() isn't a function"; }`. -/
def validateCallBack (cb : Callback) : Except JSString Unit :=
  match cb with
  | .function _ => .ok ()
  | .notFunction _ => .error (js "callback to suggest() isn\x27t a function")

/-- What a call of `suggest` or `autocomplete` does: it throws (`error`) or returns
after starting a chain (`ok`, with how the chain ends), and the trace afterwards. -/
abbrev CallResult := Except JSString (Settled JSValue) × Trace

/-- Translation of the `suggest` closure over `opts`:
```
validateCallBack(cb);
const req = new Request(newSuggestionRequest(opts), {body: JSON.stringify({email: email})});
doRequest(req, cb);
``` -/
def suggest (opts : Opts) (email : JSValue) (cb : Callback) (parse : URLParser)
    (fetch : Transport) (t : Trace) : CallResult :=
  match validateCallBack cb with
  | .error e => (.error e, t)
  | .ok _ =>
    match newSuggestionRequest parse opts with
    | .error e => (.error e, t)
    | .ok r =>
      match Request.ofRequest r
          ⟨none, none, none, none,
            (JSON.stringify (.obj [(js "email", email)])).map InitBody.text⟩ with
      | .error e => (.error e, t)
      | .ok req =>
        let done : Settled JSValue × Trace := doRequest fetch req cb t
        (.ok done.1, done.2)

/-- Translation of the `autocomplete` closure over `opts`:
```
validateCallBack(cb);
const req = new Request(newAutocompleteRequest(opts), {body: JSON.stringify({domain: domain})});
doRequest(req, cb);
``` -/
def autocomplete (opts : Opts) (domain : JSValue) (cb : Callback) (parse : URLParser)
    (fetch : Transport) (t : Trace) : CallResult :=
  match validateCallBack cb with
  | .error e => (.error e, t)
  | .ok _ =>
    match newAutocompleteRequest parse opts with
    | .error e => (.error e, t)
    | .ok r =>
      match Request.ofRequest r
          ⟨none, none, none, none,
            (JSON.stringify (.obj [(js "domain", domain)])).map InitBody.text⟩ with
      | .error e => (.error e, t)
      | .ok req =>
        let done : Settled JSValue × Trace := doRequest fetch req cb t
        (.ok done.1, done.2)

/-- The object `ERIClient.new` returns: its two operations. The platform a call runs on
(its URL parser and its transport) and the trace so far are arguments of the call. -/
structure Client where
  suggest : JSValue → Callback → URLParser → Transport → Trace → CallResult
  autocomplete : JSValue → Callback → URLParser → Transport → Trace → CallResult

/-- Translation of `ERIClient.new`:
```
if (!optsAreValid(opts)) { throw "invalid arguments to ERIClient.new(..)"; }
return { suggest: ..., autocomplete: ... };
``` -/
def ERIClient.new (opts : Option Opts) : Except JSString Client :=
  if !optsAreValid opts then .error (js "invalid arguments to ERIClient.new(..)")
  else
    match opts with
    | none => .error (js "invalid arguments to ERIClient.new(..)")
    | some o => .ok ⟨ERI.suggest o, ERI.autocomplete o⟩

/-- The empty trace. -/
def Trace.empty : Trace := ⟨[], 0, [], []⟩

/-- Whether a request override is present with its body already used. -/
def bodyAlreadyUsed (request : Option Request) : Bool :=
  match request with
  | some r => r.bodyUsed
  | none => false

/-- The spec's condition for `InvalidConfiguration`: the argument is absent, its `url`
is absent or the empty string, or its `request` is present with its body already used. -/
def invalidConfiguration (opts : Option Opts) : Prop :=
  match opts with
  | none => True
  | some o => o.url = none ∨ o.url = some [] ∨ bodyAlreadyUsed o.request = true

instance (opts : Option Opts) : Decidable (invalidConfiguration opts) :=
  match opts with
  | none => isTrue trivial
  | some o =>
    inferInstanceAs
      (Decidable (o.url = none ∨ o.url = some [] ∨ bodyAlreadyUsed o.request = true))

/-- The string `ERIClient.new` throws. -/
def invalidArguments : JSString := js "invalid arguments to ERIClient.new(..)"

/-- The string `validateCallBack` throws. -/
def invalidCallback : JSString := js "callback to suggest() isn\x27t a function"

/-- The configuration of the spec's scenario: `{url: "https://eri.example.org/"}`. -/
def exampleOpts : Opts := ⟨some (js "https://eri.example.org/"), none⟩

/-- The envelope of a failed transport step:
`{clientError: "error in request " + reason, error: undefined}`. -/
def failureEnvelope (reason : JSString) : JSObject :=
  ⟨.objectPrototype,
    [(js "clientError", .str (js "error in request " ++ reason)), (js "error", .undefined)]⟩

/-- The wire contract of a request: method `POST`, header `Content-Type:
application/json`, mode `cors`, the given URL and the given body. -/
def isWireRequest (req : Request) (url : JSString) (body : Option JSString) : Prop :=
  req.method = js "POST" ∧
    Headers.get req.headers (js "Content-Type") = some (js "application/json") ∧
    req.mode = .cors ∧ req.url = url ∧ req.body = body

instance (req : Request) (url : JSString) (body : Option JSString) :
    Decidable (isWireRequest req url body) := by
  unfold isWireRequest; infer_instance

/-- The request with the fields of the wire contract, for a URL and a body. -/
def wireRequest (url : JSString) (body : Option JSString) : Request :=
  ⟨url, js "POST", [(js "Content-Type", js "application/json")], .cors, .byDefault, body, false⟩

/-- The request of the spec's scenario: `POST https://eri.example.org/suggest` with the
body `{"email":"a@gmial.com"}`. -/
def exampleRequest : Request :=
  ⟨js "https://eri.example.org/suggest", js "POST", [(js "Content-Type", js "application/json")],
    .cors, .byDefault, some (js "\x7b\"email\":\"a@gmial.com\"\x7d"), false⟩

/-- The URL steps of the platform on the URLs of the scenarios, in a document at
`https://app.example.org/`: the empty URL is the URL of the document; the two URLs of the
service are kept; scheme and host of `HTTPS://ERI.Example.org/suggest` are lower-cased;
`https://exa mple.org/suggest` does not parse, a space being no character of a host. The
scenarios use no other URL. -/
def scenarioParser : URLParser := fun url =>
  if url = js "" then some (js "https://app.example.org/")
  else if url = js "https://eri.example.org/suggest" then some url
  else if url = js "https://eri.example.org/autocomplete" then some url
  else if url = js "HTTPS://ERI.Example.org/suggest" then
    some (js "https://eri.example.org/suggest")
  else none

/-- A configuration that `ERIClient.new` accepts and whose URL does not parse:
`{url: "https://exa mple.org/"}`. -/
def spacedOpts : Opts := ⟨some (js "https://exa mple.org/"), none⟩

/-- A configuration whose URL the platform rewrites: `{url: "HTTPS://ERI.Example.org/"}`. -/
def upperCaseOpts : Opts := ⟨some (js "HTTPS://ERI.Example.org/"), none⟩

/-- A transport on which every fetch fails with the reason `TypeError: Failed to fetch`. -/
def failingTransport : Transport := fun _ => .rejected (js "TypeError: Failed to fetch")

/-- A transport that answers every request with a body that decodes to `data`. -/
def answeringTransport (data : JSValue) : Transport := fun _ => .fulfilled ⟨.fulfilled data⟩

/-- A transport that answers every request with a body that is not JSON; decoding
fails with the reason `e`. -/
def garbledTransport (e : JSString) : Transport := fun _ => .fulfilled ⟨.rejected e⟩

/-- The decoded response of the spec's scenario: `{"suggestions": ["a@b.com"]}`. -/
def exampleData : JSValue := .obj [(js "suggestions", .arr [.str (js "a@b.com")])]

/-- The properties of a decoded response with a key `__proto__`:
`{"__proto__": "x", "suggestions": []}`. -/
def protoProps : Obj := [(js "__proto__", .str (js "x")), (js "suggestions", .arr [])]

/-- A callback that returns normally. -/
def quietCallback : JSObject → Option JSString := fun _ => none

/-- A callback that throws the reason `e`. -/
def throwingCallback (e : JSString) : JSObject → Option JSString := fun _ => some e

/-! ## Lemmas on `slice` -/

theorem slice_last (s : JSString) (h : 1 ≤ s.length) :
    slice s (-1) none = s.drop (s.length - 1) := by
  unfold slice
  have h1 : ((-1 : Int) < 0) := by decide
  simp only [h1, if_true]
  have h2 : max ((s.length : Int) + -1) 0 = ((s.length - 1 : Nat) : Int) := by omega
  rw [h2]
  have h3 : ((s.length : Int) - ((s.length - 1 : Nat) : Int)).toNat = 1 := by omega
  rw [h3, Int.toNat_ofNat]
  apply List.take_of_length_le
  simp
  omega

theorem slice_init (s : JSString) : slice s 0 (some (-1)) = s.dropLast := by
  unfold slice
  have h1 : ((-1 : Int) < 0) := by decide
  have h0 : ¬ ((0 : Int) < 0) := by decide
  simp only [h1, h0, if_true, if_false]
  have h2 : min (0 : Int) (s.length : Int) = 0 := by omega
  rw [h2]
  have h3 : (max ((s.length : Int) + -1) 0 - 0).toNat = s.length - 1 := by omega
  rw [h3]
  simp [List.dropLast_eq_take]

theorem drop_length_pred (s : JSString) (hne : s ≠ []) :
    s.drop (s.length - 1) = [s.getLast hne] := by
  have h := List.dropLast_append_getLast hne
  have hl : s.dropLast.length = s.length - 1 := by simp
  calc s.drop (s.length - 1)
      = (s.dropLast ++ [s.getLast hne]).drop (s.length - 1) := by rw [h]
    _ = [s.getLast hne] := List.drop_left' hl

theorem drop_last_eq (s : JSString) (c : Nat) (h : s.getLast? = some c) :
    s.drop (s.length - 1) = [c] := by
  have hne : s ≠ [] := by
    intro h0
    simp [h0] at h
  rw [List.getLast?_eq_getLast _ hne] at h
  rw [drop_length_pred s hne]
  simpa using h

theorem drop_last_singleton (s : JSString) (c : Nat) (h : s.drop (s.length - 1) = [c])
    (hlen : 1 ≤ s.length) : s.getLast? = some c := by
  have hne : s ≠ [] := by
    intro h0
    simp [h0] at hlen
  rw [drop_length_pred s hne] at h
  rw [List.getLast?_eq_getLast _ hne]
  simpa using h

/-- What `normalizeURL` computes, in terms of the last character of `base`. -/
theorem normalizeURL_eq (base path : JSString) :
    normalizeURL base path =
      if 1 < base.length ∧ base.getLast? = some slash then base.dropLast ++ path
      else base ++ path := by
  unfold normalizeURL
  by_cases h0 : base.length = 0
  · have hb : base = [] := List.length_eq_zero.mp h0
    subst hb
    simp
  · simp only [h0, if_false]
    by_cases hlen : 1 < base.length
    · rw [slice_last base (by omega), slice_init]
      by_cases hl : base.getLast? = some slash
      · rw [drop_last_eq base slash hl]
        simp [hlen, hl]
      · have hd : base.drop (base.length - 1) ≠ [slash] := by
          intro hd
          exact hl (drop_last_singleton base slash hd (by omega))
        simp [hlen, hl, hd]
    · have h1 : ¬ (base.length > 1) := hlen
      simp [h1, hlen]


/-! ## `normalizeURL`: claims C9 and C10 -/

/-- C10. `normalizeURL` strips at most one character. If `base` is longer than one
character and ends with `/`, the result is `base` without its last character followed
by `path`; this also holds when `base` ends with several slashes, of which only the last
is removed. In every other case, in particular for every non-empty `base` without a
trailing slash, the result is `base` followed by `path`. -/
theorem normalizeURL_strips_at_most_one (base path : JSString) :
    (1 < base.length ∧ base.getLast? = some slash →
        normalizeURL base path = base.dropLast ++ path) ∧
    (∀ b : JSString, normalizeURL (b ++ [slash, slash]) path = b ++ [slash] ++ path) ∧
    (¬ (1 < base.length ∧ base.getLast? = some slash) →
        normalizeURL base path = base ++ path) ∧
    (base ≠ [] → base.getLast? ≠ some slash → normalizeURL base path = base ++ path) := by
  refine ⟨?_, ?_, ?_, ?_⟩
  · intro h
    rw [normalizeURL_eq, if_pos h]
  · intro b
    have h : 1 < (b ++ [slash, slash]).length ∧ (b ++ [slash, slash]).getLast? = some slash := by
      constructor
      · simp
      · simp [List.getLast?_append]
    rw [normalizeURL_eq, if_pos h]
    have hd : (b ++ [slash, slash]).dropLast = b ++ [slash] := by
      have : b ++ [slash, slash] = (b ++ [slash]) ++ [slash] := by simp
      rw [this, List.dropLast_concat]
    rw [hd]
  · intro h
    rw [normalizeURL_eq, if_neg h]
  · intro _ h
    rw [normalizeURL_eq, if_neg (fun hc => h hc.2)]

/-- Witness of C10 at the bases `https://eri.example.org//` (two trailing slashes),
`https://eri.example.org` (no trailing slash) and `/` (one character). -/
theorem normalizeURL_strips_at_most_one_witness :
    normalizeURL (js "https://eri.example.org//") (js "/suggest")
        = js "https://eri.example.org//suggest" ∧
      normalizeURL (js "https://eri.example.org") (js "/suggest")
        = js "https://eri.example.org/suggest" ∧
      normalizeURL (js "/") (js "/suggest") = js "//suggest" := by
  have h1 := (normalizeURL_strips_at_most_one (js "https://eri.example.org//") (js "/suggest")).1
    (by decide)
  have h2 := (normalizeURL_strips_at_most_one (js "https://eri.example.org") (js "/suggest")).2.2.2
    (by decide) (by decide)
  have h3 := (normalizeURL_strips_at_most_one (js "/") (js "/suggest")).2.2.1 (by decide)
  refine ⟨?_, ?_, ?_⟩
  · rw [h1]; decide
  · rw [h2]; decide
  · rw [h3]; decide

/-- C9, as stated, fails at the base `/`: it is non-empty and has exactly one trailing
slash, yet `normalizeURL("/", "/x")` is `//x`, not the base without its last character
followed by the path (`/x`). -/
theorem normalizeURL_single_slash_base_kept :
    js "/" ≠ [] ∧ exactlyOneTrailingSlash (js "/") ∧
      normalizeURL (js "/") (js "/x") = js "//x" ∧
      normalizeURL (js "/") (js "/x") ≠ (js "/").dropLast ++ js "/x" := by
  decide

/-- C9, amended. For every non-empty `base` that has exactly one trailing slash and every
`path`: when `base` is longer than one character, `normalizeURL(base, path)` is `base`
without its last character followed by `path`; the one-character base `/` is kept whole. -/
theorem normalizeURL_one_trailing_slash (base path : JSString) (hne : base ≠ [])
    (h : exactlyOneTrailingSlash base) :
    (1 < base.length → normalizeURL base path = base.dropLast ++ path) ∧
    (base.length = 1 → normalizeURL base path = [slash] ++ path) := by
  constructor
  · intro hlen
    rw [normalizeURL_eq, if_pos ⟨hlen, h.1⟩]
  · intro hlen
    have hnot : ¬ (1 < base.length ∧ base.getLast? = some slash) := by
      intro hc
      omega
    rw [normalizeURL_eq, if_neg hnot]
    obtain ⟨c, hc⟩ := List.length_eq_one.mp hlen
    subst hc
    have h1 := h.1
    simp at h1
    rw [h1]

/-- Witness of the amended C9 at the base `https://eri.example.org/`. -/
theorem normalizeURL_one_trailing_slash_witness :
    js "https://eri.example.org/" ≠ [] ∧ exactlyOneTrailingSlash (js "https://eri.example.org/") ∧
      normalizeURL (js "https://eri.example.org/") (js "/suggest")
        = (js "https://eri.example.org/").dropLast ++ js "/suggest" :=
  ⟨by decide, by decide,
    (normalizeURL_one_trailing_slash (js "https://eri.example.org/") (js "/suggest")
      (by decide) (by decide)).1 (by decide)⟩

/-! ## `ERIClient.new`: claim C5 -/

theorem optsAreValid_eq_false_iff (opts : Option Opts) :
    optsAreValid opts = false ↔ invalidConfiguration opts := by
  cases opts with
  | none => simp [optsAreValid, invalidConfiguration]
  | some o =>
    obtain ⟨url, request⟩ := o
    cases url with
    | none => cases request <;> simp [optsAreValid, invalidConfiguration]
    | some u =>
      cases u with
      | nil => cases request <;> simp [optsAreValid, invalidConfiguration]
      | cons c rest =>
        cases request with
        | none => simp [optsAreValid, invalidConfiguration, bodyAlreadyUsed]
        | some r =>
          cases hb : r.bodyUsed <;>
            simp [optsAreValid, invalidConfiguration, bodyAlreadyUsed, hb]

/-- C5. `ERIClient.new(opts)` throws the string `invalid arguments to ERIClient.new(..)`
and returns no client whenever `opts` is absent, `opts.url` is absent or the empty string,
or `opts.request` is present with its body already used. For every other `opts` it does not
throw and returns the client whose operations are `suggest` and `autocomplete` closed over
`opts`. -/
theorem new_throws_iff_invalid (opts : Option Opts) :
    (invalidConfiguration opts → ERIClient.new opts = .error invalidArguments) ∧
    (¬ invalidConfiguration opts →
      ∃ o, opts = some o ∧ ERIClient.new opts = .ok ⟨suggest o, autocomplete o⟩) := by
  constructor
  · intro h
    simp [ERIClient.new, (optsAreValid_eq_false_iff opts).mpr h, invalidArguments]
  · intro h
    cases opts with
    | none => exact absurd trivial h
    | some o =>
      refine ⟨o, rfl, ?_⟩
      have hv : optsAreValid (some o) = true := by
        cases hc : optsAreValid (some o) with
        | true => rfl
        | false => exact absurd ((optsAreValid_eq_false_iff _).mp hc) h
      simp [ERIClient.new, hv]

/-- Witness of C5: the four invalid shapes of `opts` (absent, no `url`, empty `url`,
a used request) throw, and `{url: "https://eri.example.org/"}` gives a client. -/
theorem new_throws_iff_invalid_witness :
    ERIClient.new none = .error invalidArguments ∧
    ERIClient.new (some ⟨none, none⟩) = .error invalidArguments ∧
    ERIClient.new (some ⟨some (js ""), none⟩) = .error invalidArguments ∧
    ERIClient.new (some ⟨some (js "https://eri.example.org/"),
        some ⟨js "", js "POST", [], .cors, .byDefault, none, true⟩⟩)
      = .error invalidArguments ∧
    (∃ o, some exampleOpts = some o ∧
      ERIClient.new (some exampleOpts) = .ok ⟨suggest o, autocomplete o⟩) :=
  ⟨(new_throws_iff_invalid none).1 (by decide),
    (new_throws_iff_invalid (some ⟨none, none⟩)).1 (by decide),
    (new_throws_iff_invalid (some ⟨some (js ""), none⟩)).1 (by decide),
    (new_throws_iff_invalid _).1 (by decide),
    (new_throws_iff_invalid (some exampleOpts)).2 (by decide)⟩

/-! ## The callback check: claim C6 -/

/-- A client that `ERIClient.new` returned is the pair of closures over its argument. -/
theorem client_of_new (opts : Option Opts) (client : Client)
    (h : ERIClient.new opts = .ok client) :
    ∃ o, opts = some o ∧ optsAreValid (some o) = true ∧
      client = ⟨suggest o, autocomplete o⟩ := by
  cases opts with
  | none => simp [ERIClient.new, optsAreValid] at h
  | some o =>
    cases hv : optsAreValid (some o) with
    | false => simp [ERIClient.new, hv] at h
    | true =>
      simp [ERIClient.new, hv] at h
      exact ⟨o, rfl, hv, h.symm⟩

/-- C6. For every client, every first argument `x` and every `cb` that is not a function,
`suggest(x, cb)` and `autocomplete(x, cb)` throw (the string of `validateCallBack`) and
leave the trace as it was, on every platform: no request is handed to the transport, so
the number of network calls made by the call is 0. -/
theorem non_function_callback_throws_before_network (opts : Option Opts) (client : Client)
    (hnew : ERIClient.new opts = .ok client) (x v : JSValue) (parse : URLParser)
    (fetch : Transport) (t : Trace) :
    client.suggest x (.notFunction v) parse fetch t = (.error invalidCallback, t) ∧
    client.autocomplete x (.notFunction v) parse fetch t = (.error invalidCallback, t) ∧
    (client.suggest x (.notFunction v) parse fetch t).2.fetched.length = t.fetched.length ∧
    (client.autocomplete x (.notFunction v) parse fetch t).2.fetched.length
      = t.fetched.length := by
  obtain ⟨o, _, _, hc⟩ := client_of_new opts client hnew
  subst hc
  simp [suggest, autocomplete, validateCallBack, invalidCallback]

/-- Witness of C6: the client for `{url: "https://eri.example.org/"}`, called with the
callback `undefined` on a transport that would answer. -/
theorem non_function_callback_throws_before_network_witness :
    ERIClient.new (some exampleOpts) = .ok ⟨suggest exampleOpts, autocomplete exampleOpts⟩ ∧
    suggest exampleOpts (.str (js "a@gmial.com")) (.notFunction .undefined) scenarioParser
        (fun _ => .fulfilled ⟨.fulfilled .null⟩) Trace.empty
      = (.error invalidCallback, Trace.empty) ∧
    autocomplete exampleOpts (.str (js "gmi")) (.notFunction .undefined) scenarioParser
        (fun _ => .fulfilled ⟨.fulfilled .null⟩) Trace.empty
      = (.error invalidCallback, Trace.empty) :=
  ⟨rfl,
    (non_function_callback_throws_before_network (some exampleOpts)
      ⟨suggest exampleOpts, autocomplete exampleOpts⟩ rfl (.str (js "a@gmial.com")) .undefined
      scenarioParser (fun _ => .fulfilled ⟨.fulfilled .null⟩) Trace.empty).1,
    (non_function_callback_throws_before_network (some exampleOpts)
      ⟨suggest exampleOpts, autocomplete exampleOpts⟩ rfl (.str (js "gmi")) .undefined
      scenarioParser (fun _ => .fulfilled ⟨.fulfilled .null⟩) Trace.empty).2.1⟩

/-! ## Lemmas on objects and `Object.assign` -/

theorem hasKey_eq_isSome (o : Obj) (k : JSString) : hasKey o k = (getProp o k).isSome := by
  induction o with
  | nil => simp [hasKey, getProp]
  | cons p rest ih =>
    obtain ⟨k', v'⟩ := p
    by_cases h : k' = k
    · simp [hasKey, getProp, h]
    · have ih' : rest.any (fun p => decide (p.1 = k)) = (getProp rest k).isSome := ih
      simp [hasKey, getProp, h, ih']

theorem getProp_eq_none_of_not_hasKey (o : Obj) (k : JSString) (h : hasKey o k = false) :
    getProp o k = none := by
  rw [hasKey_eq_isSome] at h
  cases hg : getProp o k with
  | none => rfl
  | some v => simp [hg] at h

theorem getProp_updateProp_same (o : Obj) (k : JSString) (v : JSValue)
    (h : hasKey o k = true) : getProp (updateProp o k v) k = some v := by
  induction o with
  | nil => simp [hasKey] at h
  | cons p rest ih =>
    obtain ⟨k', v'⟩ := p
    by_cases hk : k' = k
    · simp [updateProp, getProp, hk]
    · have hrest : hasKey rest k = true := by
        simp only [hasKey, List.any_cons, hk, decide_False, Bool.false_or] at h
        exact h
      simp [updateProp, getProp, hk, ih hrest]

theorem getProp_updateProp_other (o : Obj) (k k' : JSString) (v : JSValue) (h : k' ≠ k) :
    getProp (updateProp o k' v) k = getProp o k := by
  induction o with
  | nil => simp [updateProp]
  | cons p rest ih =>
    obtain ⟨k₀, v₀⟩ := p
    by_cases h0 : k₀ = k'
    · subst h0
      simp [updateProp, getProp, h]
    · by_cases h1 : k₀ = k
      · subst h1
        simp [updateProp, getProp, h0]
      · simp [updateProp, getProp, h0, h1, ih]

theorem getProp_insertIndexed_same (n : Nat) (o : Obj) (k : JSString) (v : JSValue)
    (h : hasKey o k = false) : getProp (insertIndexed n k v o) k = some v := by
  induction o with
  | nil => simp [insertIndexed, getProp]
  | cons p rest ih =>
    obtain ⟨k', v'⟩ := p
    have hk : k' ≠ k := by
      intro hc
      simp [hasKey, hc] at h
    have hrest : hasKey rest k = false := by
      simp only [hasKey, List.any_cons, hk, decide_False, Bool.false_or] at h
      exact h
    unfold insertIndexed
    cases arrayIndex? k' with
    | none => simp [getProp]
    | some m =>
      by_cases hm : m < n
      · simp [hm, getProp, hk, ih hrest]
      · simp [hm, getProp]

theorem getProp_insertIndexed_other (n : Nat) (o : Obj) (k k' : JSString) (v : JSValue)
    (h : k' ≠ k) : getProp (insertIndexed n k' v o) k = getProp o k := by
  induction o with
  | nil => simp [insertIndexed, getProp, h]
  | cons p rest ih =>
    obtain ⟨k₀, v₀⟩ := p
    unfold insertIndexed
    cases arrayIndex? k₀ with
    | none => simp [getProp, h]
    | some m =>
      by_cases hm : m < n
      · by_cases h1 : k₀ = k
        · simp [hm, getProp, h1]
        · simp [hm, getProp, h1, ih]
      · simp [hm, getProp, h]

theorem getProp_append_same (o : Obj) (k : JSString) (v : JSValue)
    (h : hasKey o k = false) : getProp (o ++ [(k, v)]) k = some v := by
  induction o with
  | nil => simp [getProp]
  | cons p rest ih =>
    obtain ⟨k', v'⟩ := p
    have hk : k' ≠ k := by
      intro hc
      simp [hasKey, hc] at h
    have hrest : hasKey rest k = false := by
      simp only [hasKey, List.any_cons, hk, decide_False, Bool.false_or] at h
      exact h
    simp [getProp, hk, ih hrest]

theorem getProp_append_other (o : Obj) (k k' : JSString) (v : JSValue) (h : k' ≠ k) :
    getProp (o ++ [(k', v)]) k = getProp o k := by
  induction o with
  | nil => simp [getProp, h]
  | cons p rest ih =>
    obtain ⟨k₀, v₀⟩ := p
    by_cases h1 : k₀ = k
    · simp [getProp, h1]
    · simp [getProp, h1, ih]

theorem getProp_insertNew_same (o : Obj) (k : JSString) (v : JSValue)
    (h : hasKey o k = false) : getProp (insertNew o k v) k = some v := by
  unfold insertNew
  cases arrayIndex? k with
  | none => exact getProp_append_same o k v h
  | some n => exact getProp_insertIndexed_same n o k v h

theorem getProp_insertNew_other (o : Obj) (k k' : JSString) (v : JSValue) (h : k' ≠ k) :
    getProp (insertNew o k' v) k = getProp o k := by
  unfold insertNew
  cases arrayIndex? k' with
  | none => exact getProp_append_other o k k' v h
  | some n => exact getProp_insertIndexed_other n o k k' v h

theorem setPrototype_props (o : JSObject) (v : JSValue) : (setPrototype o v).props = o.props := by
  cases v <;> rfl

/-- An assignment to a key other than `__proto__` leaves the key as an own property with
the value assigned. -/
theorem getProp_setProp_same (o : JSObject) (k : JSString) (v : JSValue) (hk : k ≠ protoKey) :
    getProp (setProp o k v).props k = some v := by
  unfold setProp
  cases h : hasKey o.props k with
  | true => simpa using getProp_updateProp_same o.props k v h
  | false => simpa [hk] using getProp_insertNew_same o.props k v h

/-- An assignment does not change the own property of another key. -/
theorem getProp_setProp_other (o : JSObject) (k k' : JSString) (v : JSValue) (h : k' ≠ k) :
    getProp (setProp o k' v).props k = getProp o.props k := by
  unfold setProp
  cases hh : hasKey o.props k' with
  | true => simpa using getProp_updateProp_other o.props k k' v h
  | false =>
    by_cases hp : k' = protoKey ∧ reachesProtoSetter o.proto = true
    · simp [hp, setPrototype_props]
    · simpa [hp] using getProp_insertNew_other o.props k k' v h

/-- An assignment to a key other than `__proto__` leaves the prototype as it is. -/
theorem setProp_proto (o : JSObject) (k : JSString) (v : JSValue) (hk : k ≠ protoKey) :
    (setProp o k v).proto = o.proto := by
  unfold setProp
  cases hasKey o.props k <;> simp [hk]

/-- An assignment to `__proto__` on an object that has `Object.prototype` as prototype
and no own property of that name adds no own property. -/
theorem setProp_protoKey_props (o : JSObject) (v : JSValue)
    (hproto : o.proto = .objectPrototype) (hown : hasKey o.props protoKey = false) :
    (setProp o protoKey v).props = o.props := by
  unfold setProp
  simp [hown, hproto, reachesProtoSetter, setPrototype_props]

theorem getProp_foldl_of_not_hasKey (props : Obj) (t : JSObject) (k : JSString)
    (h : hasKey props k = false) :
    getProp (props.foldl (fun t p => setProp t p.1 p.2) t).props k = getProp t.props k := by
  induction props generalizing t with
  | nil => rfl
  | cons p rest ih =>
    obtain ⟨k', v'⟩ := p
    have hk : k' ≠ k := by
      intro hc
      simp [hasKey, hc] at h
    have hrest : hasKey rest k = false := by
      simp only [hasKey, List.any_cons, hk, decide_False, Bool.false_or] at h
      exact h
    simp only [List.foldl_cons]
    rw [ih _ hrest, getProp_setProp_other _ _ _ _ hk]

theorem not_hasKey_of_nodup (rest : Obj) (k : JSString) (v : JSValue)
    (hnd : (((k, v) :: rest).map Prod.fst).Nodup) : hasKey rest k = false := by
  simp only [List.map_cons, List.nodup_cons] at hnd
  rw [Bool.eq_false_iff]
  intro hc
  simp only [hasKey, List.any_eq_true, decide_eq_true_eq] at hc
  obtain ⟨q, hq, hqk⟩ := hc
  exact hnd.1 (List.mem_map.mpr ⟨q, hq, hqk⟩)

theorem getProp_foldl_of_mem (props : Obj) (t : JSObject) (k : JSString) (v : JSValue)
    (hnd : (props.map Prod.fst).Nodup) (hmem : (k, v) ∈ props) (hk : k ≠ protoKey) :
    getProp (props.foldl (fun t p => setProp t p.1 p.2) t).props k = some v := by
  induction props generalizing t with
  | nil => cases hmem
  | cons p rest ih =>
    simp only [List.foldl_cons]
    rcases List.mem_cons.mp hmem with h | h
    · subst h
      rw [getProp_foldl_of_not_hasKey rest _ k (not_hasKey_of_nodup rest k v hnd),
        getProp_setProp_same _ _ _ hk]
    · simp only [List.map_cons, List.nodup_cons] at hnd
      exact ih _ hnd.2 h

/-- With distinct keys in the source, no `__proto__` of the source becomes an own
property of a target that has `Object.prototype` as prototype and no such property. -/
theorem not_hasKey_protoKey_foldl (props : Obj) (t : JSObject)
    (hnd : (props.map Prod.fst).Nodup) (hproto : t.proto = .objectPrototype)
    (hown : hasKey t.props protoKey = false) :
    hasKey (props.foldl (fun t p => setProp t p.1 p.2) t).props protoKey = false := by
  induction props generalizing t with
  | nil => exact hown
  | cons p rest ih =>
    obtain ⟨k, v⟩ := p
    simp only [List.foldl_cons]
    by_cases hk : k = protoKey
    · subst hk
      have hrest := not_hasKey_of_nodup rest protoKey v hnd
      rw [hasKey_eq_isSome, getProp_foldl_of_not_hasKey rest _ protoKey hrest,
        setProp_protoKey_props t v hproto hown, ← hasKey_eq_isSome]
      exact hown
    · simp only [List.map_cons, List.nodup_cons] at hnd
      apply ih _ hnd.2
      · rw [setProp_proto _ _ _ hk]
        exact hproto
      · rw [hasKey_eq_isSome, getProp_setProp_other _ _ _ _ hk, ← hasKey_eq_isSome]
        exact hown

/-- After `Object.assign(target, source)` a key the source does not have keeps the value
it has in the target. -/
theorem getProp_assign_of_not_hasKey (target : JSObject) (source : JSValue) (k : JSString)
    (h : hasKey (ownProps source) k = false) :
    getProp (Object.assign target source).props k = getProp target.props k :=
  getProp_foldl_of_not_hasKey _ _ _ h

/-- After `Object.assign(target, source)` every property of an object source, other
than `__proto__`, is an own property of the target with the value of the source. -/
theorem getProp_assign_of_mem (target : JSObject) (props : Obj) (k : JSString) (v : JSValue)
    (hnd : (props.map Prod.fst).Nodup) (hmem : (k, v) ∈ props) (hk : k ≠ protoKey) :
    getProp (Object.assign target (.obj props)).props k = some v :=
  getProp_foldl_of_mem _ _ _ _ hnd hmem hk

/-- No own property of the target is removed by an assignment. -/
theorem hasKey_setProp (o : JSObject) (k k' : JSString) (v : JSValue)
    (h : hasKey o.props k = true) : hasKey (setProp o k' v).props k = true := by
  by_cases hk : k' = k
  · subst hk
    unfold setProp
    simp only [h, if_true]
    rw [hasKey_eq_isSome, getProp_updateProp_same _ _ _ h]
    rfl
  · rw [hasKey_eq_isSome, getProp_setProp_other _ _ _ _ hk, ← hasKey_eq_isSome]
    exact h

/-- No own property of the target is removed by `Object.assign`. -/
theorem hasKey_assign (target : JSObject) (source : JSValue) (k : JSString)
    (h : hasKey target.props k = true) : hasKey (Object.assign target source).props k = true := by
  unfold Object.assign
  generalize ownProps source = props
  induction props generalizing target with
  | nil => exact h
  | cons p rest ih =>
    simp only [List.foldl_cons]
    exact ih _ (hasKey_setProp _ _ _ _ h)

theorem assign_clientError (reason : JSString) :
    Object.assign skeleton (.obj [(js "clientError", .str (js "error in request " ++ reason))])
      = failureEnvelope reason := by
  have h : hasKey skeleton.props (js "clientError") = true := by decide
  have hs : setProp skeleton (js "clientError") (.str (js "error in request " ++ reason))
      = failureEnvelope reason := by
    unfold setProp
    rw [if_pos h]
    simp [skeleton, failureEnvelope, updateProp]
  simp [Object.assign, ownProps, hs]

/-! ## The three paths of `doRequest` -/

/-- The chain when `fetch` rejects: the first `catch` delivers the failure envelope; its
result `undefined` then reaches `r => r.json()`. -/
theorem doRequest_of_rejected (fetch : Transport) (req : Request)
    (run : JSObject → Option JSString) (t : Trace) (reason : JSString)
    (h : fetch req = .rejected reason) :
    doRequest fetch req (.function run) t =
      match run (failureEnvelope reason) with
      | none =>
        (.rejected (js "error in callback" ++ typeErrorJson .undefined),
          ⟨t.fetched ++ [req], t.decoded, t.delivered ++ [failureEnvelope reason],
            t.raised ++ [typeErrorJson .undefined] ++
              [js "error in callback" ++ typeErrorJson .undefined]⟩)
      | some e =>
        (.rejected (js "error in callback" ++ e),
          ⟨t.fetched ++ [req], t.decoded, t.delivered ++ [failureEnvelope reason],
            t.raised ++ [e] ++ [js "error in callback" ++ e]⟩) := by
  unfold doRequest
  simp only [h, Settled.map, Promise.catchDo, onFetchRejected, assign_clientError, invokeCallback]
  cases hrun : run (failureEnvelope reason) <;>
    simp [Settled.map, Promise.thenDo, Promise.catchDo, onResponse, onFailure, raise]

/-- The chain when `fetch` resolves and the body decodes to `data`: the second `then`
delivers `Object.assign(skel, data)`. -/
theorem doRequest_of_decoded (fetch : Transport) (req : Request)
    (run : JSObject → Option JSString) (t : Trace) (resp : Response) (data : JSValue)
    (h : fetch req = .fulfilled resp) (hjson : resp.json = .fulfilled data) :
    doRequest fetch req (.function run) t =
      match run (Object.assign skeleton data) with
      | none =>
        (.fulfilled .undefined,
          ⟨t.fetched ++ [req], t.decoded + 1, t.delivered ++ [Object.assign skeleton data],
            t.raised⟩)
      | some e =>
        (.rejected (js "error in callback" ++ e),
          ⟨t.fetched ++ [req], t.decoded + 1, t.delivered ++ [Object.assign skeleton data],
            t.raised ++ [e] ++ [js "error in callback" ++ e]⟩) := by
  unfold doRequest
  simp only [h, hjson, Settled.map, Promise.catchDo, Promise.thenDo, onResponse, onData,
    invokeCallback]
  cases hrun : run (Object.assign skeleton data) <;>
    simp [Promise.catchDo, onFailure, raise]

/-- The chain when `fetch` resolves and the body does not decode: both `then` handlers
after `json()` are passed over and only the last `catch` runs. -/
theorem doRequest_of_undecodable (fetch : Transport) (req : Request) (cb : Callback)
    (t : Trace) (resp : Response) (e : JSString) (h : fetch req = .fulfilled resp)
    (hjson : resp.json = .rejected e) :
    doRequest fetch req cb t =
      (.rejected (js "error in callback" ++ e),
        ⟨t.fetched ++ [req], t.decoded + 1, t.delivered,
          t.raised ++ [js "error in callback" ++ e]⟩) := by
  unfold doRequest
  simp [h, hjson, Settled.map, Promise.catchDo, Promise.thenDo, onResponse, onFailure, raise]

/-- Every call of `doRequest` with a function hands its request, and only it, to `fetch`. -/
theorem doRequest_fetched (fetch : Transport) (req : Request)
    (run : JSObject → Option JSString) (t : Trace) :
    (doRequest fetch req (.function run) t).2.fetched = t.fetched ++ [req] := by
  cases h : fetch req with
  | rejected reason =>
    rw [doRequest_of_rejected fetch req run t reason h]
    cases run (failureEnvelope reason) <;> rfl
  | fulfilled resp =>
    cases hjson : resp.json with
    | rejected e => rw [doRequest_of_undecodable fetch req _ t resp e h hjson]
    | fulfilled data =>
      rw [doRequest_of_decoded fetch req run t resp data h hjson]
      cases run (Object.assign skeleton data) <;> rfl

/-! ## The request of `suggest` and `autocomplete`: claim C1 -/

theorem contentType_of_template :
    Headers.get [(js "Content-Type", js "application/json")] (js "Content-Type")
      = some (js "application/json") := by
  decide

/-- The JSON text of an object with one string property. -/
theorem stringify_single (key x : JSString) :
    JSON.stringify (.obj [(key, .str x)])
      = some (js "\x7b" ++ (quoteJSONString key ++ js ":" ++ quoteJSONString x) ++ js "\x7d") := by
  simp [JSON.stringify, serialize, serialize.serializeProps, joinWith]

/-- The JSON text escapes what `QuoteJSONString` escapes: the quote, the backslash and a
line feed in `{email: 'a"b\c' + LF}`, a control character, and a lone surrogate; a
surrogate pair is kept. -/
theorem stringify_escapes :
    JSON.stringify (.obj [(js "email", .str (js "a\"b\\c\n"))])
        = some (js "\x7b\"email\":\"a\\\"b\\\\c\\n\"\x7d") ∧
      quoteJSONString [1] = js "\"\\u0001\"" ∧
      quoteJSONString [55357] = js "\"\\ud83d\"" ∧
      quoteJSONString [55357, 56832] = [34, 55357, 56832, 34] := by
  decide

/-- The fresh template of `newRequest`, when the platform accepts the empty URL. -/
theorem newRequest_fresh (parse : URLParser) (url : Option JSString) (d : JSString)
    (h : parse (js "") = some d) :
    newRequest parse ⟨url, none⟩ = .ok (wireRequest d none) := by
  have h1 : js "POST" ≠ js "GET" := by decide
  have h2 : js "POST" ≠ js "HEAD" := by decide
  simp [newRequest, Request.ofURL, h, Request.construct, h1, h2, wireRequest]

/-- The template cannot be built when the platform refuses the empty URL. -/
theorem newRequest_refused (parse : URLParser) (url : Option JSString)
    (h : parse (js "") = none) :
    newRequest parse ⟨url, none⟩ = .error (typeErrorURL (js "")) := by
  simp [newRequest, Request.ofURL, h]

/-- The template bound to a URL that the platform accepts. -/
theorem template_bound (parse : URLParser) (target u d : JSString)
    (h : parse target = some u) :
    Request.ofURL parse target (wireRequest d none).asInit = .ok (wireRequest u none) := by
  have h1 : js "POST" ≠ js "GET" := by decide
  have h2 : js "POST" ≠ js "HEAD" := by decide
  simp [Request.ofURL, h, Request.construct, Request.asInit, wireRequest, h1, h2]

/-- The body attached to the bound template. -/
theorem body_attached (u body : JSString) :
    Request.ofRequest (wireRequest u none) ⟨none, none, none, none, some (.text body)⟩
      = .ok (wireRequest u (some body)) := by
  have h1 : js "POST" ≠ js "GET" := by decide
  have h2 : js "POST" ≠ js "HEAD" := by decide
  simp [Request.ofRequest, Request.construct, wireRequest, h1, h2, contentType_of_template,
    RequestInit.nonEmpty]

theorem suggest_eq (url x d u : JSString) (run : JSObject → Option JSString)
    (parse : URLParser) (fetch : Transport) (t : Trace) (hd : parse (js "") = some d)
    (hu : parse (normalizeURL url (js "/suggest")) = some u) :
    suggest ⟨some url, none⟩ (.str x) (.function run) parse fetch t =
      (.ok (doRequest fetch (wireRequest u (JSON.stringify (.obj [(js "email", .str x)])))
          (.function run) t).1,
        (doRequest fetch (wireRequest u (JSON.stringify (.obj [(js "email", .str x)])))
          (.function run) t).2) := by
  simp only [suggest, validateCallBack, newSuggestionRequest, newRequest_fresh parse _ d hd,
    template_bound parse _ u d hu, stringify_single, Option.map, body_attached]

theorem autocomplete_eq (url x d u : JSString) (run : JSObject → Option JSString)
    (parse : URLParser) (fetch : Transport) (t : Trace) (hd : parse (js "") = some d)
    (hu : parse (normalizeURL url (js "/autocomplete")) = some u) :
    autocomplete ⟨some url, none⟩ (.str x) (.function run) parse fetch t =
      (.ok (doRequest fetch (wireRequest u (JSON.stringify (.obj [(js "domain", .str x)])))
          (.function run) t).1,
        (doRequest fetch (wireRequest u (JSON.stringify (.obj [(js "domain", .str x)])))
          (.function run) t).2) := by
  simp only [autocomplete, validateCallBack, newAutocompleteRequest,
    newRequest_fresh parse _ d hd, template_bound parse _ u d hu, stringify_single, Option.map,
    body_attached]

/-- With the empty URL refused, both operations throw before a request exists. -/
theorem calls_throw_of_base_refused (url : JSString) (x : JSValue) (cb : Callback)
    (parse : URLParser) (fetch : Transport) (t : Trace) (hd : parse (js "") = none) :
    (validateCallBack cb = .ok () →
      suggest ⟨some url, none⟩ x cb parse fetch t = (.error (typeErrorURL (js "")), t)) ∧
    (validateCallBack cb = .ok () →
      autocomplete ⟨some url, none⟩ x cb parse fetch t = (.error (typeErrorURL (js "")), t)) := by
  constructor <;> intro hcb <;>
    simp [suggest, autocomplete, hcb, newSuggestionRequest, newAutocompleteRequest,
      newRequest_refused parse _ hd]

/-- With the URL of the endpoint refused, `suggest` throws before a request exists. -/
theorem suggest_throws_of_refused (url d : JSString) (x : JSValue)
    (run : JSObject → Option JSString) (parse : URLParser) (fetch : Transport) (t : Trace)
    (hd : parse (js "") = some d) (hu : parse (normalizeURL url (js "/suggest")) = none) :
    suggest ⟨some url, none⟩ x (.function run) parse fetch t
      = (.error (typeErrorURL (normalizeURL url (js "/suggest"))), t) := by
  simp [suggest, validateCallBack, newSuggestionRequest, newRequest_fresh parse _ d hd,
    Request.ofURL, hu]

/-- With the URL of the endpoint refused, `autocomplete` throws before a request exists. -/
theorem autocomplete_throws_of_refused (url d : JSString) (x : JSValue)
    (run : JSObject → Option JSString) (parse : URLParser) (fetch : Transport) (t : Trace)
    (hd : parse (js "") = some d) (hu : parse (normalizeURL url (js "/autocomplete")) = none) :
    autocomplete ⟨some url, none⟩ x (.function run) parse fetch t
      = (.error (typeErrorURL (normalizeURL url (js "/autocomplete"))), t) := by
  simp [autocomplete, validateCallBack, newAutocompleteRequest, newRequest_fresh parse _ d hd,
    Request.ofURL, hu]

theorem isWireRequest_wireRequest (url : JSString) (body : Option JSString) :
    isWireRequest (wireRequest url body) url body :=
  ⟨rfl, contentType_of_template, rfl, rfl, rfl⟩

/-- C1, as stated, fails on a platform whose `Request` constructor parses the URL. The
configuration `{url: "https://exa mple.org/"}` has no request override and `ERIClient.new`
accepts it, yet `suggest("a@gmial.com", cb)` throws a `TypeError` and hands no request to
the transport. The configuration `{url: "HTTPS://ERI.Example.org/"}` hands one request,
whose URL is the serialised `https://eri.example.org/suggest` and not
`normalizeURL(config.url, '/suggest')`. -/
theorem suggest_throws_on_unparsable_url :
    ERIClient.new (some spacedOpts) = .ok ⟨suggest spacedOpts, autocomplete spacedOpts⟩ ∧
    spacedOpts.request = none ∧
    suggest spacedOpts (.str (js "a@gmial.com")) (.function quietCallback) scenarioParser
        failingTransport Trace.empty
      = (.error (typeErrorURL (js "https://exa mple.org/suggest")), Trace.empty) ∧
    (suggest spacedOpts (.str (js "a@gmial.com")) (.function quietCallback) scenarioParser
        failingTransport Trace.empty).2.fetched = [] ∧
    ERIClient.new (some upperCaseOpts)
      = .ok ⟨suggest upperCaseOpts, autocomplete upperCaseOpts⟩ ∧
    upperCaseOpts.request = none ∧
    (suggest upperCaseOpts (.str (js "a@gmial.com")) (.function quietCallback) scenarioParser
        failingTransport Trace.empty).2.fetched = [exampleRequest] ∧
    exampleRequest.url ≠ normalizeURL (js "HTTPS://ERI.Example.org/") (js "/suggest") := by
  refine ⟨rfl, rfl, rfl, rfl, rfl, rfl, ?_, ?_⟩
  · decide
  · decide

/-- C1, amended. For every client built by `ERIClient.new` from a config with no request
override, every email string, every function `cb` and every platform: when the `Request`
constructor of the platform accepts the empty URL and `normalizeURL(config.url,
'/suggest')`, `suggest(email, cb)` does not throw and hands exactly one request to the
transport, with method `POST`, header `Content-Type: application/json`, mode `cors`, the
URL that the platform makes of `normalizeURL(config.url, '/suggest')`, and the JSON text of
`{email: email}` as body; when the constructor refuses one of the two URLs, `suggest`
throws a `TypeError` and hands no request. `autocomplete(domain, cb)` does the same with
the path `/autocomplete` and the body `{domain: domain}`. In particular, with the url
`https://eri.example.org/` and the email `a@gmial.com` the request is
`POST https://eri.example.org/suggest` with the body `{"email":"a@gmial.com"}`. -/
theorem suggest_autocomplete_hand_one_request :
    (∀ (o : Opts) (client : Client), ERIClient.new (some o) = .ok client → o.request = none →
      ∀ (x : JSString) (run : JSObject → Option JSString) (parse : URLParser)
        (fetch : Transport) (t : Trace),
        ∃ url, o.url = some url ∧
          (∀ d u, parse (js "") = some d → parse (normalizeURL url (js "/suggest")) = some u →
            ∃ (req : Request) (final : Settled JSValue) (t₁ : Trace),
              client.suggest (.str x) (.function run) parse fetch t = (.ok final, t₁) ∧
              t₁.fetched = t.fetched ++ [req] ∧
              isWireRequest req u (JSON.stringify (.obj [(js "email", .str x)]))) ∧
          (∀ d u, parse (js "") = some d →
            parse (normalizeURL url (js "/autocomplete")) = some u →
            ∃ (req : Request) (final : Settled JSValue) (t₁ : Trace),
              client.autocomplete (.str x) (.function run) parse fetch t = (.ok final, t₁) ∧
              t₁.fetched = t.fetched ++ [req] ∧
              isWireRequest req u (JSON.stringify (.obj [(js "domain", .str x)]))) ∧
          (parse (js "") = none →
            client.suggest (.str x) (.function run) parse fetch t
              = (.error (typeErrorURL (js "")), t) ∧
            client.autocomplete (.str x) (.function run) parse fetch t
              = (.error (typeErrorURL (js "")), t)) ∧
          (∀ d, parse (js "") = some d → parse (normalizeURL url (js "/suggest")) = none →
            client.suggest (.str x) (.function run) parse fetch t
              = (.error (typeErrorURL (normalizeURL url (js "/suggest"))), t)) ∧
          (∀ d, parse (js "") = some d → parse (normalizeURL url (js "/autocomplete")) = none →
            client.autocomplete (.str x) (.function run) parse fetch t
              = (.error (typeErrorURL (normalizeURL url (js "/autocomplete"))), t)) ∧
          JSON.stringify (.obj [(js "email", .str x)])
            = some (js "\x7b\"email\":" ++ quoteJSONString x ++ js "\x7d") ∧
          JSON.stringify (.obj [(js "domain", .str x)])
            = some (js "\x7b\"domain\":" ++ quoteJSONString x ++ js "\x7d")) ∧
    (∀ (run : JSObject → Option JSString) (fetch : Transport),
      (suggest exampleOpts (.str (js "a@gmial.com")) (.function run) scenarioParser fetch
        Trace.empty).2.fetched = [exampleRequest]) := by
  have hkey₁ : quoteJSONString (js "email") = js "\"email\"" := by decide
  have hkey₂ : quoteJSONString (js "domain") = js "\"domain\"" := by decide
  have hpre₁ : ∀ x : JSString,
      js "\x7b" ++ (js "\"email\"" ++ js ":" ++ quoteJSONString x) ++ js "\x7d"
        = js "\x7b\"email\":" ++ quoteJSONString x ++ js "\x7d" := by
    intro x
    have : js "\x7b" ++ (js "\"email\"" ++ js ":") = js "\x7b\"email\":" := by decide
    rw [← this]
    simp
  have hpre₂ : ∀ x : JSString,
      js "\x7b" ++ (js "\"domain\"" ++ js ":" ++ quoteJSONString x) ++ js "\x7d"
        = js "\x7b\"domain\":" ++ quoteJSONString x ++ js "\x7d" := by
    intro x
    have : js "\x7b" ++ (js "\"domain\"" ++ js ":") = js "\x7b\"domain\":" := by decide
    rw [← this]
    simp
  constructor
  · intro o client hnew hreq x run parse fetch t
    obtain ⟨o', ho', hvalid, hc⟩ := client_of_new (some o) client hnew
    cases ho'
    subst hc
    obtain ⟨ourl, oreq⟩ := o
    simp only at hreq
    subst hreq
    cases ourl with
    | none => simp [optsAreValid] at hvalid
    | some url =>
      refine ⟨url, rfl, ?_, ?_, ?_, ?_, ?_, ?_, ?_⟩
      · intro d u hd hu
        exact ⟨_, _, _, suggest_eq url x d u run parse fetch t hd hu, doRequest_fetched _ _ _ _,
          isWireRequest_wireRequest _ _⟩
      · intro d u hd hu
        exact ⟨_, _, _, autocomplete_eq url x d u run parse fetch t hd hu,
          doRequest_fetched _ _ _ _, isWireRequest_wireRequest _ _⟩
      · intro hd
        have h := calls_throw_of_base_refused url (.str x) (.function run) parse fetch t hd
        exact ⟨h.1 rfl, h.2 rfl⟩
      · intro d hd hu
        exact suggest_throws_of_refused url d (.str x) run parse fetch t hd hu
      · intro d hd hu
        exact autocomplete_throws_of_refused url d (.str x) run parse fetch t hd hu
      · rw [stringify_single, hkey₁, hpre₁]
      · rw [stringify_single, hkey₂, hpre₂]
  · intro run fetch
    have hreq : wireRequest (js "https://eri.example.org/suggest")
        (JSON.stringify (.obj [(js "email", .str (js "a@gmial.com"))])) = exampleRequest := by
      decide
    have hn : normalizeURL (js "https://eri.example.org/") (js "/suggest")
        = js "https://eri.example.org/suggest" := by decide
    have h := suggest_eq (js "https://eri.example.org/") (js "a@gmial.com")
      (js "https://app.example.org/") (js "https://eri.example.org/suggest") run scenarioParser
      fetch Trace.empty (by decide) (by rw [hn]; decide)
    rw [hreq] at h
    have hx : exampleOpts = ⟨some (js "https://eri.example.org/"), none⟩ := rfl
    rw [hx, h, doRequest_fetched]
    rfl

/-- Witness of the amended C1: on the platform of the scenarios, the client for
`{url: "https://eri.example.org/"}` hands the one request
`POST https://eri.example.org/suggest` with the body `{"email":"a@gmial.com"}` to a failing
transport. -/
theorem suggest_autocomplete_hand_one_request_witness :
    ERIClient.new (some exampleOpts) = .ok ⟨suggest exampleOpts, autocomplete exampleOpts⟩ ∧
    exampleOpts.request = none ∧
    scenarioParser (js "") = some (js "https://app.example.org/") ∧
    (suggest exampleOpts (.str (js "a@gmial.com")) (.function quietCallback) scenarioParser
        failingTransport Trace.empty).2.fetched = [exampleRequest] ∧
    ∃ url, exampleOpts.url = some url ∧
      scenarioParser (normalizeURL url (js "/suggest")) = some (js "https://eri.example.org/suggest") ∧
      ∃ (req : Request) (final : Settled JSValue) (t₁ : Trace),
        suggest exampleOpts (.str (js "a@gmial.com")) (.function quietCallback) scenarioParser
            failingTransport Trace.empty = (.ok final, t₁) ∧
          t₁.fetched = Trace.empty.fetched ++ [req] ∧
          isWireRequest req (js "https://eri.example.org/suggest")
            (JSON.stringify (.obj [(js "email", .str (js "a@gmial.com"))])) := by
  refine ⟨rfl, rfl, by decide,
    suggest_autocomplete_hand_one_request.2 quietCallback failingTransport, ?_⟩
  obtain ⟨url, hurl, hs, _⟩ :=
    suggest_autocomplete_hand_one_request.1 exampleOpts
      ⟨suggest exampleOpts, autocomplete exampleOpts⟩ rfl rfl (js "a@gmial.com") quietCallback
      scenarioParser failingTransport Trace.empty
  have hu : url = js "https://eri.example.org/" := by
    have : some (js "https://eri.example.org/") = some url := hurl
    exact (Option.some.inj this).symm
  subst hu
  have hp : scenarioParser (normalizeURL (js "https://eri.example.org/") (js "/suggest"))
      = some (js "https://eri.example.org/suggest") := by decide
  exact ⟨_, hurl, hp, hs (js "https://app.example.org/") (js "https://eri.example.org/suggest")
    (by decide) hp⟩

/-! ## The envelope of a successful response: claim C2 -/

/-- C2, as stated, fails at the response `{"__proto__": "x", "suggestions": []}`, a JSON
object with distinct keys: `Object.assign` passes the key `__proto__` to the setter that
`skel` inherits, which ignores a string, so the key of the response is not in the envelope
the callback gets. -/
theorem doRequest_proto_key_not_in_envelope :
    (protoProps.map Prod.fst).Nodup ∧
    (js "__proto__", JSValue.str (js "x")) ∈ protoProps ∧
    (doRequest (answeringTransport (.obj protoProps)) exampleRequest (.function quietCallback)
        Trace.empty).2.delivered
      = [⟨.objectPrototype, [(js "clientError", .undefined), (js "error", .undefined),
          (js "suggestions", .arr [])]⟩] ∧
    getProp (Object.assign skeleton (.obj protoProps)).props (js "__proto__") = none ∧
    hasKey (Object.assign skeleton (.obj protoProps)).props (js "__proto__") = false := by
  refine ⟨by decide, by simp [protoProps], rfl, rfl, rfl⟩

/-- C2, amended. For every request whose transport step succeeds and whose body decodes to
a JSON object `data` (an object has distinct keys), `doRequest` invokes the callback with
the envelope obtained by overlaying `data` on the skeleton `{clientError: undefined, error:
undefined}`: every key of `data` other than `__proto__` is in the envelope with the value
of `data`, a key `__proto__` of `data` is no key of the envelope, the keys `clientError` and
`error` are always present, and each of them is `undefined` when `data` does not supply a
value for it. In particular the response `{"suggestions": ["a@b.com"]}` yields exactly
`{clientError: undefined, error: undefined, suggestions: ["a@b.com"]}`. -/
theorem doRequest_success_envelope :
    (∀ (fetch : Transport) (req : Request) (run : JSObject → Option JSString) (t : Trace)
        (resp : Response) (props : Obj),
      fetch req = .fulfilled resp → resp.json = .fulfilled (.obj props) →
      (props.map Prod.fst).Nodup →
        ∃ envelope : JSObject,
          envelope = Object.assign skeleton (.obj props) ∧
          (doRequest fetch req (.function run) t).2.delivered = t.delivered ++ [envelope] ∧
          (∀ k v, (k, v) ∈ props → k ≠ js "__proto__" → getProp envelope.props k = some v) ∧
          hasKey envelope.props (js "__proto__") = false ∧
          hasKey envelope.props (js "clientError") = true ∧
          hasKey envelope.props (js "error") = true ∧
          (hasKey props (js "clientError") = false →
            getProp envelope.props (js "clientError") = some .undefined) ∧
          (hasKey props (js "error") = false →
            getProp envelope.props (js "error") = some .undefined)) ∧
    (∀ (req : Request) (run : JSObject → Option JSString),
      (doRequest (answeringTransport exampleData) req (.function run) Trace.empty).2.delivered
        = [⟨.objectPrototype, [(js "clientError", .undefined), (js "error", .undefined),
            (js "suggestions", .arr [.str (js "a@b.com")])]⟩]) := by
  constructor
  · intro fetch req run t resp props hfetch hjson hnd
    refine ⟨_, rfl, ?_, ?_, ?_, ?_, ?_, ?_, ?_⟩
    · rw [doRequest_of_decoded fetch req run t resp _ hfetch hjson]
      cases run (Object.assign skeleton (.obj props)) <;> rfl
    · intro k v hmem hk
      exact getProp_assign_of_mem skeleton props k v hnd hmem hk
    · exact not_hasKey_protoKey_foldl props skeleton hnd rfl (by decide)
    · exact hasKey_assign skeleton _ _ (by decide)
    · exact hasKey_assign skeleton _ _ (by decide)
    · intro h
      rw [getProp_assign_of_not_hasKey skeleton (.obj props) _ h]
      rfl
    · intro h
      rw [getProp_assign_of_not_hasKey skeleton (.obj props) _ h]
      rfl
  · intro req run
    rw [doRequest_of_decoded (answeringTransport exampleData) req run Trace.empty
      ⟨.fulfilled exampleData⟩ exampleData rfl rfl]
    have henv : Object.assign skeleton exampleData
        = ⟨.objectPrototype, [(js "clientError", .undefined), (js "error", .undefined),
            (js "suggestions", .arr [.str (js "a@b.com")])]⟩ := by
      rfl
    rw [henv]
    cases run _ <;> rfl

/-- Witness of the amended C2 at the response `{"suggestions": ["a@b.com"]}`. -/
theorem doRequest_success_envelope_witness :
    answeringTransport exampleData exampleRequest = .fulfilled ⟨.fulfilled exampleData⟩ ∧
    ([(js "suggestions", JSValue.arr [.str (js "a@b.com")])].map Prod.fst).Nodup ∧
    ∃ envelope : JSObject,
      envelope = Object.assign skeleton exampleData ∧
      (doRequest (answeringTransport exampleData) exampleRequest (.function quietCallback)
        Trace.empty).2.delivered = Trace.empty.delivered ++ [envelope] ∧
      getProp envelope.props (js "suggestions") = some (.arr [.str (js "a@b.com")]) ∧
      getProp envelope.props (js "clientError") = some .undefined ∧
      getProp envelope.props (js "error") = some .undefined := by
  have hnd : ([(js "suggestions", JSValue.arr [.str (js "a@b.com")])].map Prod.fst).Nodup := by
    simp
  obtain ⟨envelope, henv, hdel, hall, _, _, _, hc, he⟩ :=
    doRequest_success_envelope.1 (answeringTransport exampleData) exampleRequest quietCallback
      Trace.empty ⟨.fulfilled exampleData⟩ [(js "suggestions", .arr [.str (js "a@b.com")])]
      rfl rfl hnd
  exact ⟨rfl, hnd, envelope, henv, hdel,
    hall (js "suggestions") _ (by simp) (by decide), hc (by decide), he (by decide)⟩

/-! ## The envelope of a failed transport step: claim C3 -/

/-- C3. For every request whose transport step fails with a reason `r`, `doRequest` invokes
the callback with exactly one envelope, in which `clientError` is the non-empty string
`"error in request "` followed by `r`, `error` is `undefined`, and there is no other key. -/
theorem doRequest_failure_envelope (fetch : Transport) (req : Request)
    (run : JSObject → Option JSString) (t : Trace) (r : JSString)
    (h : fetch req = .rejected r) :
    (doRequest fetch req (.function run) t).2.delivered
        = t.delivered ++
          [⟨.objectPrototype,
            [(js "clientError", .str (js "error in request " ++ r)),
              (js "error", .undefined)]⟩] ∧
      js "error in request " ++ r ≠ [] ∧
      (js "error in request " ++ r).take 17 = js "error in request " ∧
      (js "error in request " ++ r).drop 17 = r := by
  refine ⟨?_, ?_, ?_, ?_⟩
  · rw [doRequest_of_rejected fetch req run t r h]
    cases run (failureEnvelope r) <;> rfl
  · have : js "error in request " = 101 :: (js "error in request ").tail := by decide
    rw [this]
    simp
  · have hl : (js "error in request ").length = 17 := by decide
    rw [← hl, List.take_left]
  · have hl : (js "error in request ").length = 17 := by decide
    rw [← hl, List.drop_left]

/-- Witness of C3: a fetch that fails with `TypeError: Failed to fetch`. -/
theorem doRequest_failure_envelope_witness :
    failingTransport exampleRequest = .rejected (js "TypeError: Failed to fetch") ∧
    (doRequest failingTransport exampleRequest (.function quietCallback) Trace.empty).2.delivered
      = [⟨.objectPrototype,
          [(js "clientError", .str (js "error in request TypeError: Failed to fetch")),
            (js "error", .undefined)]⟩] :=
  ⟨rfl,
    (doRequest_failure_envelope failingTransport exampleRequest quietCallback Trace.empty
      (js "TypeError: Failed to fetch") rfl).1⟩

/-! ## A callback that throws: claim C8 -/

/-- C8. For every request whose transport step succeeds and whose body decodes as JSON, if
the callback throws a reason `e` when invoked with the merged envelope, then the promise
chain of `doRequest` ends rejected with `"error in callback"` followed by `e`. The callback
is invoked once, with the merged envelope, and not a second time; what the handlers raise
is `e` and then that condition; and the one envelope delivered has `clientError`
`undefined` unless the response itself supplies the key. -/
theorem doRequest_callback_throws (fetch : Transport) (req : Request)
    (run : JSObject → Option JSString) (t : Trace) (resp : Response) (data : JSValue)
    (e : JSString) (hfetch : fetch req = .fulfilled resp) (hjson : resp.json = .fulfilled data)
    (hthrow : run (Object.assign skeleton data) = some e) :
    (doRequest fetch req (.function run) t).1 = .rejected (js "error in callback" ++ e) ∧
      (doRequest fetch req (.function run) t).2.delivered
        = t.delivered ++ [Object.assign skeleton data] ∧
      (doRequest fetch req (.function run) t).2.raised
        = t.raised ++ [e] ++ [js "error in callback" ++ e] ∧
      (hasKey (ownProps data) (js "clientError") = false →
        getProp (Object.assign skeleton data).props (js "clientError") = some .undefined) := by
  rw [doRequest_of_decoded fetch req run t resp data hfetch hjson, hthrow]
  refine ⟨rfl, rfl, rfl, ?_⟩
  intro h
  rw [getProp_assign_of_not_hasKey skeleton data _ h]
  rfl

/-- Witness of C8: the response `{"suggestions": ["a@b.com"]}` and a callback that throws
`Error: boom`. -/
theorem doRequest_callback_throws_witness :
    answeringTransport exampleData exampleRequest = .fulfilled ⟨.fulfilled exampleData⟩ ∧
    throwingCallback (js "Error: boom") (Object.assign skeleton exampleData)
      = some (js "Error: boom") ∧
    (doRequest (answeringTransport exampleData) exampleRequest
        (.function (throwingCallback (js "Error: boom"))) Trace.empty).1
      = .rejected (js "error in callbackError: boom") ∧
    (doRequest (answeringTransport exampleData) exampleRequest
        (.function (throwingCallback (js "Error: boom"))) Trace.empty).2.delivered
      = [⟨.objectPrototype, [(js "clientError", .undefined), (js "error", .undefined),
          (js "suggestions", .arr [.str (js "a@b.com")])]⟩] := by
  have h := doRequest_callback_throws (answeringTransport exampleData) exampleRequest
    (throwingCallback (js "Error: boom")) Trace.empty ⟨.fulfilled exampleData⟩ exampleData
    (js "Error: boom") rfl rfl rfl
  exact ⟨rfl, rfl, h.1, h.2.1⟩

/-! ## Where the chain of `doRequest` departs from the spec: claims C4 and C7 -/

/-- C4 at its failing input: when the fetch resolves and the body does not decode as JSON,
the callback is not invoked at all; the chain ends rejected with `"error in callback"`
followed by the reason of the decoder. -/
theorem doRequest_undecodable_body_never_calls_back (e : JSString) (req : Request)
    (cb : Callback) (t : Trace) :
    (doRequest (garbledTransport e) req cb t).2.delivered = t.delivered ∧
      (doRequest (garbledTransport e) req cb t).1 = .rejected (js "error in callback" ++ e) ∧
      (doRequest (garbledTransport (js "SyntaxError: Unexpected token")) exampleRequest
        (.function quietCallback) Trace.empty).2.delivered = [] := by
  rw [doRequest_of_undecodable (garbledTransport e) req cb t ⟨.rejected e⟩ e rfl rfl,
    doRequest_of_undecodable (garbledTransport (js "SyntaxError: Unexpected token"))
      exampleRequest (.function quietCallback) Trace.empty ⟨.rejected _⟩ _ rfl rfl]
  exact ⟨rfl, rfl, rfl⟩

/-- C7 at its failing input: when the fetch fails and the callback returns normally, the
chain goes on after the failure envelope is delivered. The handler `r => r.json()` runs on
`undefined` and raises a `TypeError`, and the last `catch` raises `"error in callback"`
followed by it: the chain ends rejected. No body is decoded. -/
theorem doRequest_transport_failure_chain_raises (req : Request) (t : Trace) :
    (doRequest failingTransport req (.function quietCallback) t).1
        = .rejected (js "error in callback" ++ typeErrorJson .undefined) ∧
      (doRequest failingTransport req (.function quietCallback) t).2.raised
        = t.raised ++ [typeErrorJson .undefined] ++
            [js "error in callback" ++ typeErrorJson .undefined] ∧
      (doRequest failingTransport req (.function quietCallback) t).2.decoded = t.decoded ∧
      (doRequest failingTransport req (.function quietCallback) t).2.delivered
        = t.delivered ++ [failureEnvelope (js "TypeError: Failed to fetch")] := by
  rw [doRequest_of_rejected failingTransport req quietCallback t
    (js "TypeError: Failed to fetch") rfl]
  exact ⟨rfl, rfl, rfl, rfl⟩

end ERI
